import Mathlib

/-!
Verification of the core subsystems of `testGame.cpp`: the procedural dungeon
generator (room placement with overlap rejection and L-shaped corridor
connection), the grid-locked movement state machine with eased pixel
interpolation, the input hold-timing latch, the walkability query, and the
scrolling camera.

Modelling conventions:
* C++ `int` is modelled as `ℤ`; all divisions and moduli in the source act on
  non-negative operands, where C++ truncating division agrees with Lean's
  `Int` division.
* C++ `float` quantities (pixel positions, timers, progress) are modelled as
  `ℚ`; every claim proved about them is an order/exactness property that the
  source establishes by direct assignment or by adding non-negative values.
* The global `int dungeon[DUNGEON_HEIGHT][DUNGEON_WIDTH]` array is modelled as
  a total function `ℤ → ℤ → TileType` (row-major: `grid y x` is
  `dungeon[y][x]`); every write in the source is bounds-checked, and the reads
  proved about occur in-bounds, so the function model is faithful.
* `rand()` is modelled as an arbitrary stream `ℕ → ℕ` of non-negative values,
  consumed in the exact call order of the source.
* `std::vector<Room> rooms` with `push_back`/`back` is modelled as a `List Room`
  with the most recently placed room at the head (the C++ vector reversed);
  `rooms.back()` is the head of the list.
-/

namespace TestGame

/-- `const int SCREEN_WIDTH = 800`. -/
def SCREEN_WIDTH : ℤ := 800

/-- `const int SCREEN_HEIGHT = 600`. -/
def SCREEN_HEIGHT : ℤ := 600

/-- `const int TILE_SIZE = 40`. -/
def TILE_SIZE : ℤ := 40

/-- `const int PLAYER_SIZE = 30`. -/
def PLAYER_SIZE : ℤ := 30

/-- `const float MOVE_SPEED = 8.0f` (tiles per second). -/
def MOVE_SPEED : ℚ := 8

/-- `const float INPUT_BUFFER_TIME = 0.15f`. -/
def INPUT_BUFFER_TIME : ℚ := 0.15

/-- `const int DUNGEON_WIDTH = 40`. -/
def DUNGEON_WIDTH : ℤ := 40

/-- `const int DUNGEON_HEIGHT = 30`. -/
def DUNGEON_HEIGHT : ℤ := 30

/-- `enum TileType { WALL = 1, FLOOR = 0, CORRIDOR = 2 }`.  The numeric values
are never used arithmetically in the source (only `==`/`!=` comparisons), so an
inductive type is a faithful model. -/
inductive TileType where
  | WALL
  | FLOOR
  | CORRIDOR
deriving DecidableEq

/-- `enum Direction` is a bitmask (`NONE=0, UP=1, DOWN=2, LEFT=4, RIGHT=8`,
diagonals are bitwise ORs), modelled as the underlying natural number. -/
abbrev Direction := ℕ

/-- `NONE = 0`. -/
def NONE : Direction := 0

/-- `UP = 1`. -/
def UP : Direction := 1

/-- `DOWN = 2`. -/
def DOWN : Direction := 2

/-- `LEFT = 4`. -/
def LEFT : Direction := 4

/-- `RIGHT = 8`. -/
def RIGHT : Direction := 8

/-- `struct Room { int x, y; int width, height; }`. -/
structure Room where
  x : ℤ
  y : ℤ
  width : ℤ
  height : ℤ
deriving DecidableEq, Repr

/-- The dungeon grid `int dungeon[DUNGEON_HEIGHT][DUNGEON_WIDTH]`, as a total
function; `g y x` models `dungeon[y][x]`. -/
abbrev Grid := ℤ → ℤ → TileType

/-- A single bounds-unchecked array store `dungeon[y][x] = t` (every call site
performs its own bounds check, exactly as the source does). -/
def setCell (g : Grid) (y x : ℤ) (t : TileType) : Grid :=
  fun y' x' => if y' = y ∧ x' = x then t else g y' x'

/-- The canonical pixel coordinate of a grid cell index:
`c * TILE_SIZE + (TILE_SIZE - PLAYER_SIZE) / 2` (integer arithmetic, then used
as a float).  This expression appears verbatim at every pixel assignment in
`Player`. -/
def canonicalPixel (c : ℤ) : ℚ :=
  ((c * TILE_SIZE + (TILE_SIZE - PLAYER_SIZE) / 2 : ℤ) : ℚ)

/-- `struct Player` state. -/
structure Player where
  gridX : ℤ
  gridY : ℤ
  pixelX : ℚ
  pixelY : ℚ
  isMoving : Bool
  movingDirection : Direction
  moveProgress : ℚ
  targetGridX : ℤ
  targetGridY : ℤ
  lastInputDirection : Direction
  inputHoldTime : ℚ
  continuousMoveEnabled : Bool

/-- The `Player()` default constructor. -/
def Player.mk0 : Player :=
  { gridX := 0, gridY := 0, pixelX := 0, pixelY := 0,
    isMoving := false, movingDirection := NONE, moveProgress := 0,
    targetGridX := 0, targetGridY := 0, lastInputDirection := NONE,
    inputHoldTime := 0, continuousMoveEnabled := false }

/-- `Player::setGridPosition(int x, int y)`: sets the grid cell, the target
cell and the pixel position; all other fields are left untouched (the source
does not write them). -/
def setGridPosition (p : Player) (x y : ℤ) : Player :=
  { p with gridX := x, gridY := y,
           targetGridX := x, targetGridY := y,
           pixelX := canonicalPixel x, pixelY := canonicalPixel y }

/-- `Player::startMove(Direction dir, int destGridX, int destGridY)`. -/
def startMove (p : Player) (dir : Direction) (destGridX destGridY : ℤ) : Player :=
  { p with isMoving := true, movingDirection := dir, moveProgress := 0,
           targetGridX := destGridX, targetGridY := destGridY }

/-- `Player::updateMovement(float deltaTime)`. -/
def updateMovement (p : Player) (deltaTime : ℚ) : Player :=
  if p.isMoving = false then p
  else
    let moveProgress := p.moveProgress + MOVE_SPEED * deltaTime
    if 1 ≤ moveProgress then
      { p with moveProgress := 1,
               gridX := p.targetGridX, gridY := p.targetGridY,
               pixelX := canonicalPixel p.targetGridX,
               pixelY := canonicalPixel p.targetGridY,
               isMoving := false, movingDirection := NONE }
    else
      let startPixelX := canonicalPixel p.gridX
      let startPixelY := canonicalPixel p.gridY
      let endPixelX := canonicalPixel p.targetGridX
      let endPixelY := canonicalPixel p.targetGridY
      let t := 1 - (1 - moveProgress) ^ 3
      { p with moveProgress := moveProgress,
               pixelX := startPixelX + (endPixelX - startPixelX) * t,
               pixelY := startPixelY + (endPixelY - startPixelY) * t }

/-- `Player::updateInputTiming(Direction currentInput, float deltaTime)`. -/
def updateInputTiming (p : Player) (currentInput : Direction) (deltaTime : ℚ) :
    Player :=
  if currentInput = NONE then
    { p with lastInputDirection := NONE, inputHoldTime := 0,
             continuousMoveEnabled := false }
  else if currentInput = p.lastInputDirection then
    let hold := p.inputHoldTime + deltaTime
    { p with inputHoldTime := hold,
             continuousMoveEnabled :=
               if INPUT_BUFFER_TIME ≤ hold then true
               else p.continuousMoveEnabled }
  else
    { p with lastInputDirection := currentInput, inputHoldTime := 0,
             continuousMoveEnabled := false }

/-- `Player::shouldAcceptInput()`. -/
def shouldAcceptInput (p : Player) : Bool :=
  !p.isMoving || p.continuousMoveEnabled

/-- `struct Camera` (offset is float, viewport size is int). -/
structure Camera where
  x : ℚ
  y : ℚ
  width : ℤ
  height : ℤ

/-- The `Camera()` constructor: offset 0, viewport = screen size. -/
def Camera.mk0 : Camera := ⟨0, 0, SCREEN_WIDTH, SCREEN_HEIGHT⟩

/-- `Camera::followPlayer(float playerX, float playerY, int dungeonPixelWidth,
int dungeonPixelHeight)`: center on the player, then clamp to 0 below and to
`dungeonPixel* - viewport` above, in that order.  `PLAYER_SIZE / 2` and
`width / 2` are integer divisions as in the source. -/
def followPlayer (c : Camera) (playerX playerY : ℚ)
    (dungeonPixelWidth dungeonPixelHeight : ℤ) : Camera :=
  let x := playerX + ((PLAYER_SIZE / 2 : ℤ) : ℚ) - ((c.width / 2 : ℤ) : ℚ)
  let y := playerY + ((PLAYER_SIZE / 2 : ℤ) : ℚ) - ((c.height / 2 : ℤ) : ℚ)
  let x := if x < 0 then 0 else x
  let y := if y < 0 then 0 else y
  let x := if ((dungeonPixelWidth - c.width : ℤ) : ℚ) < x
           then ((dungeonPixelWidth - c.width : ℤ) : ℚ) else x
  let y := if ((dungeonPixelHeight - c.height : ℤ) : ℚ) < y
           then ((dungeonPixelHeight - c.height : ℤ) : ℚ) else y
  { c with x := x, y := y }

/-- `roomOverlaps` body for one existing room: the four strict inequalities of
the padding-inflated AABB test. -/
def roomOverlapsWith (newRoom room : Room) (padding : ℤ) : Bool :=
  decide (newRoom.x < room.x + room.width + padding) &&
  decide (room.x < newRoom.x + newRoom.width + padding) &&
  decide (newRoom.y < room.y + room.height + padding) &&
  decide (room.y < newRoom.y + newRoom.height + padding)

/-- `roomOverlaps(const Room&, const std::vector<Room>&, int padding = 2)`:
true iff the candidate overlaps (under padding) some already placed room. -/
def roomOverlaps (newRoom : Room) (existingRooms : List Room) (padding : ℤ) :
    Bool :=
  existingRooms.any fun room => roomOverlapsWith newRoom room padding

/-- The inner `x` loop of `carveRoom`: starting at column `x`, carve `n` cells
of row `y` to `FLOOR`, each write guarded by the source's bounds check. -/
def carveRowFrom (g : Grid) (y x : ℤ) : ℕ → Grid
  | 0 => g
  | n + 1 =>
    let g' := if 0 ≤ y ∧ y < DUNGEON_HEIGHT ∧ 0 ≤ x ∧ x < DUNGEON_WIDTH then
                setCell g y x TileType.FLOOR
              else g
    carveRowFrom g' y (x + 1) n

/-- The outer `y` loop of `carveRoom`: carve `n` rows starting at row `y`. -/
def carveRoomRows (g : Grid) (room : Room) (y : ℤ) : ℕ → Grid
  | 0 => g
  | n + 1 =>
    carveRoomRows (carveRowFrom g y room.x room.width.toNat) room (y + 1) n

/-- `carveRoom(const Room&)`: set every in-bounds cell of the room rectangle to
`FLOOR`.  The loops run `room.height`resp. `room.width` times (zero times for a
non-positive extent, as in C++). -/
def carveRoom (g : Grid) (room : Room) : Grid :=
  carveRoomRows g room room.y room.height.toNat

/-- The loop of `carveHorizontalCorridor`: starting at column `x` of row `y`,
visit `n` cells; each in-bounds cell that is currently `WALL` becomes
`CORRIDOR`. -/
def carveHFrom (g : Grid) (y x : ℤ) : ℕ → Grid
  | 0 => g
  | n + 1 =>
    let g' := if (0 ≤ x ∧ x < DUNGEON_WIDTH ∧ 0 ≤ y ∧ y < DUNGEON_HEIGHT) ∧
                 g y x = TileType.WALL then
                setCell g y x TileType.CORRIDOR
              else g
    carveHFrom g' y (x + 1) n

/-- `carveHorizontalCorridor(int x1, int x2, int y)`: the source loops `x` from
`min x1 x2` to `max x1 x2` inclusive, i.e. `|x1 - x2| + 1` iterations. -/
def carveHorizontalCorridor (g : Grid) (x1 x2 y : ℤ) : Grid :=
  carveHFrom g y (min x1 x2) ((x1 - x2).natAbs + 1)

/-- The loop of `carveVerticalCorridor`: starting at row `y` of column `x`,
visit `n` cells; each in-bounds cell that is currently `WALL` becomes
`CORRIDOR`. -/
def carveVFrom (g : Grid) (x y : ℤ) : ℕ → Grid
  | 0 => g
  | n + 1 =>
    let g' := if (0 ≤ x ∧ x < DUNGEON_WIDTH ∧ 0 ≤ y ∧ y < DUNGEON_HEIGHT) ∧
                 g y x = TileType.WALL then
                setCell g y x TileType.CORRIDOR
              else g
    carveVFrom g' x (y + 1) n

/-- `carveVerticalCorridor(int y1, int y2, int x)`. -/
def carveVerticalCorridor (g : Grid) (y1 y2 x : ℤ) : Grid :=
  carveVFrom g x (min y1 y2) ((y1 - y2).natAbs + 1)

/-- The stream of `rand()` results (non-negative, consumed in call order). -/
abbrev Rng := ℕ → ℕ

/-- The grid store plus placed-room list mutated by `generateDungeon`
(`rooms` holds the most recently placed room first; `rooms.back()` of the C++
vector is the list head). -/
structure GenState where
  grid : Grid
  rooms : List Room

/-- One candidate room of a `generateDungeon` loop iteration: `generateRoom(4,
9)` draws `width = 4 + rand() % 6` and `height = 4 + rand() % 6` (its `x`, `y`
are left unset and immediately overwritten by the caller), then the caller
draws `x = 1 + rand() % (DUNGEON_WIDTH - width - 2)` and
`y = 1 + rand() % (DUNGEON_HEIGHT - height - 2)`.  The four `rand()` calls are
`r k`, `r (k+1)`, `r (k+2)`, `r (k+3)` in source order. -/
def sampledRoom (r : Rng) (k : ℕ) : Room :=
  let width : ℤ := 4 + (r k : ℤ) % 6
  let height : ℤ := 4 + (r (k + 1) : ℤ) % 6
  { x := 1 + (r (k + 2) : ℤ) % (DUNGEON_WIDTH - width - 2),
    y := 1 + (r (k + 3) : ℤ) % (DUNGEON_HEIGHT - height - 2),
    width := width, height := height }

/-- The body of the `generateDungeon` placement loop: sample a candidate room;
if it overlaps an existing room (padding 2) discard it, otherwise carve it and,
when a previous room exists, connect the two room centers with an L-shaped
corridor whose elbow orientation is chosen by `rand() % 2`.  Returns the new
state and the next unconsumed `rand()` index. -/
def placeRoomStep (r : Rng) (k : ℕ) (s : GenState) : GenState × ℕ :=
  let newRoom := sampledRoom r k
  if roomOverlaps newRoom s.rooms 2 then (s, k + 4)
  else
    let g1 := carveRoom s.grid newRoom
    match s.rooms with
    | [] => (⟨g1, [newRoom]⟩, k + 4)
    | prevRoom :: rest =>
      let prevCenterX := prevRoom.x + prevRoom.width / 2
      let prevCenterY := prevRoom.y + prevRoom.height / 2
      let newCenterX := newRoom.x + newRoom.width / 2
      let newCenterY := newRoom.y + newRoom.height / 2
      let g2 :=
        if r (k + 4) % 2 = 0 then
          carveVerticalCorridor
            (carveHorizontalCorridor g1 prevCenterX newCenterX prevCenterY)
            prevCenterY newCenterY newCenterX
        else
          carveHorizontalCorridor
            (carveVerticalCorridor g1 prevCenterY newCenterY prevCenterX)
            prevCenterX newCenterX newCenterY
      (⟨g2, newRoom :: prevRoom :: rest⟩, k + 5)

/-- The `while (rooms.size() < numRooms && attempts < maxAttempts)` loop,
with `fuel = maxAttempts - attempts` and `k` the next `rand()` index. -/
def genLoop (r : Rng) (numRooms : ℕ) : ℕ → ℕ → GenState → GenState
  | 0, _, s => s
  | fuel + 1, k, s =>
    if s.rooms.length < numRooms then
      let sk := placeRoomStep r k s
      genLoop r numRooms fuel sk.2 sk.1
    else s

/-- `generateDungeon()`: reset every cell to `WALL`, clear the room list, draw
`numRooms = 8 + rand() % 5`, and run up to `maxAttempts = 100` placement
attempts. -/
def generateDungeon (r : Rng) : GenState :=
  genLoop r (8 + r 0 % 5) 100 1 ⟨fun _ _ => TileType.WALL, []⟩

/-- `isWalkable(int gridX, int gridY)` (the global `dungeon` passed
explicitly): false out of range, otherwise the cell is not `WALL`. -/
def isWalkable (g : Grid) (gridX gridY : ℤ) : Bool :=
  if gridX < 0 ∨ DUNGEON_WIDTH ≤ gridX ∨ gridY < 0 ∨ DUNGEON_HEIGHT ≤ gridY
  then false
  else decide (g gridY gridX ≠ TileType.WALL)

/-- `getTargetFromDirection(Direction dir, int currentX, int currentY, int&
targetX, int& targetY)`: apply the four bit tests in source order; the result
pair is `(targetX, targetY)`. -/
def getTargetFromDirection (dir : Direction) (currentX currentY : ℤ) : ℤ × ℤ :=
  let targetX := currentX
  let targetY := currentY
  let targetY := if dir &&& UP ≠ 0 then targetY - 1 else targetY
  let targetY := if dir &&& DOWN ≠ 0 then targetY + 1 else targetY
  let targetX := if dir &&& LEFT ≠ 0 then targetX - 1 else targetX
  let targetX := if dir &&& RIGHT ≠ 0 then targetX + 1 else targetX
  (targetX, targetY)

/-- One `PLAYING`-state frame of the main loop, player part: update the
movement animation, update input timing, then (if input is held and accepted)
try to start a move toward the input direction's target when it is walkable. -/
def frame (g : Grid) (p : Player) (currentInput : Direction) (deltaTime : ℚ) :
    Player :=
  let p1 := updateMovement p deltaTime
  let p2 := updateInputTiming p1 currentInput deltaTime
  if currentInput ≠ NONE ∧ shouldAcceptInput p2 = true then
    let t := getTargetFromDirection currentInput p2.gridX p2.gridY
    if isWalkable g t.1 t.2 then startMove p2 currentInput t.1 t.2
    else p2
  else p2

/-! ## C10: opposing direction bits cancel an axis -/

/-- C10: for every direction bitmask in which both opposing bits of one axis
are set (`UP` and `DOWN`, or `LEFT` and `RIGHT`), `getTargetFromDirection`
returns a target whose coordinate on that axis equals the current coordinate:
the per-bit `±1` offsets sum to 0 rather than double-offsetting the axis. -/
theorem getTargetFromDirection_opposing_bits_cancel (dir : Direction)
    (currentX currentY : ℤ) :
    (dir &&& UP ≠ 0 → dir &&& DOWN ≠ 0 →
      (getTargetFromDirection dir currentX currentY).2 = currentY) ∧
    (dir &&& LEFT ≠ 0 → dir &&& RIGHT ≠ 0 →
      (getTargetFromDirection dir currentX currentY).1 = currentX) := by
  constructor
  · intro h1 h2
    simp [getTargetFromDirection, h1, h2]
  · intro h1 h2
    simp [getTargetFromDirection, h1, h2]

/-- Witness for C10 at the concrete bitmasks `UP ||| DOWN = 3` and
`LEFT ||| RIGHT = 12`. -/
theorem getTargetFromDirection_opposing_bits_cancel_witness :
    ((3 : Direction) &&& UP ≠ 0 ∧ (3 : Direction) &&& DOWN ≠ 0 ∧
      (getTargetFromDirection 3 7 9).2 = 9) ∧
    ((12 : Direction) &&& LEFT ≠ 0 ∧ (12 : Direction) &&& RIGHT ≠ 0 ∧
      (getTargetFromDirection 12 7 9).1 = 7) :=
  ⟨⟨by decide, by decide,
      (getTargetFromDirection_opposing_bits_cancel 3 7 9).1 (by decide) (by decide)⟩,
   ⟨by decide, by decide,
      (getTargetFromDirection_opposing_bits_cancel 12 7 9).2 (by decide) (by decide)⟩⟩

/-! ## C8: walkability query -/

/-- C8: `isWalkable` returns `false` for every coordinate outside
`[0, DUNGEON_WIDTH) × [0, DUNGEON_HEIGHT)` — and does so for every grid, i.e.
without consulting any grid element — while for every in-range coordinate it
returns `true` iff the cell's kind is not `WALL`.  (The query is a pure
function of the grid in this model, so it mutates nothing.) -/
theorem isWalkable_spec (g : Grid) (gridX gridY : ℤ) :
    ((gridX < 0 ∨ DUNGEON_WIDTH ≤ gridX ∨ gridY < 0 ∨ DUNGEON_HEIGHT ≤ gridY) →
      isWalkable g gridX gridY = false ∧
      ∀ g' : Grid, isWalkable g' gridX gridY = false) ∧
    (0 ≤ gridX → gridX < DUNGEON_WIDTH → 0 ≤ gridY → gridY < DUNGEON_HEIGHT →
      (isWalkable g gridX gridY = true ↔ g gridY gridX ≠ TileType.WALL)) := by
  constructor
  · intro h
    exact ⟨by simp [isWalkable, h], fun g' => by simp [isWalkable, h]⟩
  · intro h1 h2 h3 h4
    have h : ¬ (gridX < 0 ∨ DUNGEON_WIDTH ≤ gridX ∨ gridY < 0 ∨
        DUNGEON_HEIGHT ≤ gridY) := by omega
    simp [isWalkable, h]

/-- Witness for C8: the out-of-range coordinate `(-1, 0)` on an all-`FLOOR`
grid, and the in-range coordinate `(3, 4)` on the same grid. -/
theorem isWalkable_spec_witness :
    (isWalkable (fun _ _ => TileType.FLOOR) (-1) 0 = false ∧
      ∀ g' : Grid, isWalkable g' (-1) 0 = false) ∧
    (isWalkable (fun _ _ => TileType.FLOOR) 3 4 = true ↔
      (fun _ _ => TileType.FLOOR : Grid) 4 3 ≠ TileType.WALL) :=
  ⟨(isWalkable_spec (fun _ _ => TileType.FLOOR) (-1) 0).1 (by decide),
   (isWalkable_spec (fun _ _ => TileType.FLOOR) 3 4).2 (by decide) (by decide)
     (by decide) (by decide)⟩

/-! ## C4: the snap operation -/

/-- A concrete player frozen in the middle of a Transition (as can happen when
the dungeon is regenerated from the pause menu mid-move). -/
def midMovePlayer : Player :=
  { Player.mk0 with isMoving := true, movingDirection := RIGHT,
                    moveProgress := 1/2, lastInputDirection := RIGHT,
                    inputHoldTime := 1/5, continuousMoveEnabled := true }

/-- Counterexample for C4 as stated: calling `setGridPosition` on a player in
the middle of a Transition does *not* yield `isMoving = false` — the source
never writes the movement/input fields in `setGridPosition`. -/
theorem setGridPosition_counterexample :
    ¬ ((setGridPosition midMovePlayer 3 4).isMoving = false) := by decide

/-- C4 (amended): `setGridPosition(x, y)` yields
`pixelX = x*TILE_SIZE + (TILE_SIZE−PLAYER_SIZE)/2` (and analogously `pixelY`),
current cell `(x, y)` and target cell equal to the current cell; but it leaves
every movement/input field (moving flag, direction, progress, last input
direction, hold time, continuous-move flag) exactly as it was — it does not
reset them. -/
theorem setGridPosition_spec (p : Player) (x y : ℤ) :
    (setGridPosition p x y).pixelX = canonicalPixel x ∧
    (setGridPosition p x y).pixelY = canonicalPixel y ∧
    (setGridPosition p x y).gridX = x ∧
    (setGridPosition p x y).gridY = y ∧
    (setGridPosition p x y).targetGridX = x ∧
    (setGridPosition p x y).targetGridY = y ∧
    (setGridPosition p x y).isMoving = p.isMoving ∧
    (setGridPosition p x y).movingDirection = p.movingDirection ∧
    (setGridPosition p x y).moveProgress = p.moveProgress ∧
    (setGridPosition p x y).lastInputDirection = p.lastInputDirection ∧
    (setGridPosition p x y).inputHoldTime = p.inputHoldTime ∧
    (setGridPosition p x y).continuousMoveEnabled = p.continuousMoveEnabled :=
  ⟨rfl, rfl, rfl, rfl, rfl, rfl, rfl, rfl, rfl, rfl, rfl, rfl⟩

/-! ## C5: camera clamping -/

/-- Counterexample for C5 as stated: with the default viewport (800×600) and a
100×100-pixel dungeon (smaller than the viewport), following a player at the
origin leaves the horizontal offset at `100 - 800 = -700`, not at the claimed
lower bound `0` — the upper-bound clamp runs after the lower-bound clamp. -/
theorem followPlayer_counterexample :
    (100 : ℤ) < Camera.mk0.width ∧
    ¬ ((followPlayer Camera.mk0 0 0 100 100).x = 0) := by
  constructor
  · decide
  · norm_num [followPlayer, Camera.mk0, PLAYER_SIZE, SCREEN_WIDTH, SCREEN_HEIGHT]

/-- C5 (amended): `followPlayer` first centers the viewport on the player's
pixel-center, then clamps below at `0`, then clamps above at
`dungeonPixel − viewport` (in that order).  On any axis where the dungeon is at
least as large as the viewport the resulting offset keeps the viewport inside
`[0, dungeonPixelWidth] × [0, dungeonPixelHeight]`; but on an axis where the
dungeon is *smaller* than the viewport the resulting offset equals the upper
bound `dungeonPixel − viewport` (a negative value), not the lower bound `0`. -/
theorem followPlayer_clamp_spec (c : Camera) (playerX playerY : ℚ)
    (dungeonPixelWidth dungeonPixelHeight : ℤ) :
    (c.width ≤ dungeonPixelWidth →
      0 ≤ (followPlayer c playerX playerY dungeonPixelWidth dungeonPixelHeight).x ∧
      (followPlayer c playerX playerY dungeonPixelWidth dungeonPixelHeight).x +
        (c.width : ℚ) ≤ (dungeonPixelWidth : ℚ)) ∧
    (c.height ≤ dungeonPixelHeight →
      0 ≤ (followPlayer c playerX playerY dungeonPixelWidth dungeonPixelHeight).y ∧
      (followPlayer c playerX playerY dungeonPixelWidth dungeonPixelHeight).y +
        (c.height : ℚ) ≤ (dungeonPixelHeight : ℚ)) ∧
    (dungeonPixelWidth < c.width →
      (followPlayer c playerX playerY dungeonPixelWidth dungeonPixelHeight).x =
        ((dungeonPixelWidth - c.width : ℤ) : ℚ)) ∧
    (dungeonPixelHeight < c.height →
      (followPlayer c playerX playerY dungeonPixelWidth dungeonPixelHeight).y =
        ((dungeonPixelHeight - c.height : ℤ) : ℚ)) := by
  refine ⟨fun h => ?_, fun h => ?_, fun h => ?_, fun h => ?_⟩
  · have h' : ((c.width : ℤ) : ℚ) ≤ ((dungeonPixelWidth : ℤ) : ℚ) := by
      exact_mod_cast h
    unfold followPlayer
    dsimp only
    split_ifs <;> push_cast at * <;> constructor <;> linarith
  · have h' : ((c.height : ℤ) : ℚ) ≤ ((dungeonPixelHeight : ℤ) : ℚ) := by
      exact_mod_cast h
    unfold followPlayer
    dsimp only
    split_ifs <;> push_cast at * <;> constructor <;> linarith
  · have h' : ((dungeonPixelWidth : ℤ) : ℚ) < ((c.width : ℤ) : ℚ) := by
      exact_mod_cast h
    unfold followPlayer
    dsimp only
    split_ifs <;> push_cast at * <;> linarith
  · have h' : ((dungeonPixelHeight : ℤ) : ℚ) < ((c.height : ℤ) : ℚ) := by
      exact_mod_cast h
    unfold followPlayer
    dsimp only
    split_ifs <;> push_cast at * <;> linarith

/-- Witness for C5 (amended) with the real in-game sizes (dungeon 1600×1200,
viewport 800×600) for the first two conjuncts, and a 100-pixel-wide/high
dungeon for the two small-dungeon conjuncts. -/
theorem followPlayer_clamp_spec_witness :
    (0 ≤ (followPlayer Camera.mk0 0 0 1600 1200).x ∧
      (followPlayer Camera.mk0 0 0 1600 1200).x + (Camera.mk0.width : ℚ) ≤
        (1600 : ℚ)) ∧
    (0 ≤ (followPlayer Camera.mk0 0 0 1600 1200).y ∧
      (followPlayer Camera.mk0 0 0 1600 1200).y + (Camera.mk0.height : ℚ) ≤
        (1200 : ℚ)) ∧
    (followPlayer Camera.mk0 0 0 100 100).x = ((100 - Camera.mk0.width : ℤ) : ℚ) ∧
    (followPlayer Camera.mk0 0 0 100 100).y = ((100 - Camera.mk0.height : ℤ) : ℚ) :=
  ⟨(followPlayer_clamp_spec Camera.mk0 0 0 1600 1200).1 (by decide),
   (followPlayer_clamp_spec Camera.mk0 0 0 1600 1200).2.1 (by decide),
   (followPlayer_clamp_spec Camera.mk0 0 0 100 100).2.2.1 (by decide),
   (followPlayer_clamp_spec Camera.mk0 0 0 100 100).2.2.2 (by decide)⟩

/-! ## C7: the input-hold latch -/

/-- Feed the same raw direction to `updateInputTiming` once per frame, with the
given per-frame deltas. -/
def holdInput (p : Player) (dir : Direction) : List ℚ → Player
  | [] => p
  | d :: ds => holdInput (updateInputTiming p dir d) dir ds

lemma updateInputTiming_same (p : Player) (dir : Direction) (d : ℚ)
    (hdir : dir ≠ NONE) (hlast : p.lastInputDirection = dir) :
    updateInputTiming p dir d =
      { p with inputHoldTime := p.inputHoldTime + d,
               continuousMoveEnabled :=
                 if INPUT_BUFFER_TIME ≤ p.inputHoldTime + d then true
                 else p.continuousMoveEnabled } := by
  rw [updateInputTiming, if_neg hdir, if_pos hlast.symm]

lemma holdInput_same (dir : Direction) (hdir : dir ≠ NONE) :
    ∀ (ds : List ℚ) (p : Player), p.lastInputDirection = dir →
      (∀ d ∈ ds, 0 ≤ d) → ds ≠ [] →
      (holdInput p dir ds).lastInputDirection = dir ∧
      (holdInput p dir ds).inputHoldTime = p.inputHoldTime + ds.sum ∧
      (holdInput p dir ds).continuousMoveEnabled =
        (p.continuousMoveEnabled ||
          decide (INPUT_BUFFER_TIME ≤ p.inputHoldTime + ds.sum)) := by
  intro ds
  induction ds with
  | nil => intro p _ _ hne; exact absurd rfl hne
  | cons d ds ih =>
    intro p hlast hds _
    have hstep := updateInputTiming_same p dir d hdir hlast
    have hqlast : (updateInputTiming p dir d).lastInputDirection = dir := by
      rw [hstep]; exact hlast
    have hqhold : (updateInputTiming p dir d).inputHoldTime =
        p.inputHoldTime + d := by
      rw [hstep]
    have hqcont : (updateInputTiming p dir d).continuousMoveEnabled =
        (if INPUT_BUFFER_TIME ≤ p.inputHoldTime + d then true
         else p.continuousMoveEnabled) := by
      rw [hstep]
    rw [holdInput]
    by_cases hne2 : ds = []
    · subst hne2
      rw [holdInput]
      refine ⟨hqlast, ?_, ?_⟩
      · rw [hqhold]; simp
      · rw [hqcont]
        by_cases hc : INPUT_BUFFER_TIME ≤ p.inputHoldTime + d
        · rw [if_pos hc]; simp [hc]
        · rw [if_neg hc]; simp [hc]
    · have hd : 0 ≤ d := hds d (by simp)
      have hsum : 0 ≤ ds.sum :=
        List.sum_nonneg fun x hx => hds x (by simp [hx])
      obtain ⟨hl, hh, hc⟩ := ih (updateInputTiming p dir d) hqlast
        (fun x hx => hds x (by simp [hx])) hne2
      refine ⟨hl, ?_, ?_⟩
      · rw [hh, hqhold, List.sum_cons]
        ring
      · rw [hc, hqhold, hqcont, List.sum_cons]
        by_cases h1 : INPUT_BUFFER_TIME ≤ p.inputHoldTime + d
        · have h2 : INPUT_BUFFER_TIME ≤ p.inputHoldTime + (d + ds.sum) := by
            linarith
          rw [if_pos h1]
          simp [h2]
        · rw [if_neg h1]
          have h3 : p.inputHoldTime + d + ds.sum =
              p.inputHoldTime + (d + ds.sum) := by ring
          rw [h3]

/-- C7: the input latch.  (1) Feeding the same non-`NONE` direction that is
already latched for one or more frames with non-negative deltas keeps the
direction, accumulates the deltas into the hold time, and the continuous-move
flag ends up true exactly when it already was true or the accumulated hold
time reaches `INPUT_BUFFER_TIME = 0.15`; in particular once set it stays set
while the direction continues.  (2) Feeding `NONE` resets last direction to
`NONE`, hold time to 0 and the flag to false.  (3) Feeding a direction
different from the last one records it, resets hold time to 0 and clears the
flag within that same call. -/
theorem updateInputTiming_latch (p : Player) (dir : Direction) (ds : List ℚ)
    (hdir : dir ≠ NONE) (hlast : p.lastInputDirection = dir)
    (hds : ∀ d ∈ ds, 0 ≤ d) (hne : ds ≠ []) :
    ((holdInput p dir ds).lastInputDirection = dir ∧
     (holdInput p dir ds).inputHoldTime = p.inputHoldTime + ds.sum ∧
     (holdInput p dir ds).continuousMoveEnabled =
       (p.continuousMoveEnabled ||
         decide (INPUT_BUFFER_TIME ≤ p.inputHoldTime + ds.sum))) ∧
    (∀ (q : Player) (d : ℚ), updateInputTiming q NONE d =
      { q with lastInputDirection := NONE, inputHoldTime := 0,
               continuousMoveEnabled := false }) ∧
    (∀ (q : Player) (d : ℚ), dir ≠ q.lastInputDirection →
      updateInputTiming q dir d =
        { q with lastInputDirection := dir, inputHoldTime := 0,
                 continuousMoveEnabled := false }) := by
  refine ⟨holdInput_same dir hdir ds p hlast hds hne, ?_, ?_⟩
  · intro q d
    rw [updateInputTiming, if_pos rfl]
  · intro q d hne2
    rw [updateInputTiming, if_neg hdir, if_neg hne2]

/-- A player whose last recorded input direction is `RIGHT` with no hold time
accumulated yet (the state right after a direction change). -/
def latchPlayer : Player := { Player.mk0 with lastInputDirection := RIGHT }

/-- Witness for C7: holding `RIGHT` for one 1-second frame latches
continuous movement. -/
theorem updateInputTiming_latch_witness :
    (RIGHT ≠ NONE ∧ latchPlayer.lastInputDirection = RIGHT ∧
      (∀ d ∈ [(1 : ℚ)], 0 ≤ d) ∧ [(1 : ℚ)] ≠ []) ∧
    ((holdInput latchPlayer RIGHT [(1 : ℚ)]).lastInputDirection = RIGHT ∧
     (holdInput latchPlayer RIGHT [(1 : ℚ)]).inputHoldTime =
       latchPlayer.inputHoldTime + [(1 : ℚ)].sum ∧
     (holdInput latchPlayer RIGHT [(1 : ℚ)]).continuousMoveEnabled =
       (latchPlayer.continuousMoveEnabled ||
         decide (INPUT_BUFFER_TIME ≤ latchPlayer.inputHoldTime + [(1 : ℚ)].sum))) ∧
    (∀ (q : Player) (d : ℚ), updateInputTiming q NONE d =
      { q with lastInputDirection := NONE, inputHoldTime := 0,
               continuousMoveEnabled := false }) ∧
    (∀ (q : Player) (d : ℚ), RIGHT ≠ q.lastInputDirection →
      updateInputTiming q RIGHT d =
        { q with lastInputDirection := RIGHT, inputHoldTime := 0,
                 continuousMoveEnabled := false }) :=
  ⟨⟨by decide, by decide, by decide, by decide⟩,
   updateInputTiming_latch latchPlayer RIGHT [(1 : ℚ)] (by decide) (by decide)
     (by decide) (by decide)⟩

/-! ## C3: progress monotonicity and exact completion -/

/-- The trajectory of repeated `updateMovement` calls: the initial state
followed by the state after each successive call. -/
def movementTrace (p : Player) : List ℚ → List Player
  | [] => [p]
  | d :: ds => p :: movementTrace (updateMovement p d) ds

lemma updateMovement_not_moving (p : Player) (d : ℚ) (h : p.isMoving = false) :
    updateMovement p d = p := by
  rw [updateMovement, if_pos h]

lemma updateMovement_complete (q : Player) (d : ℚ) (hm : q.isMoving = true)
    (h1 : 1 ≤ q.moveProgress + MOVE_SPEED * d) :
    updateMovement q d =
      { q with moveProgress := 1,
               gridX := q.targetGridX, gridY := q.targetGridY,
               pixelX := canonicalPixel q.targetGridX,
               pixelY := canonicalPixel q.targetGridY,
               isMoving := false, movingDirection := NONE } := by
  rw [updateMovement, if_neg (by simp [hm])]
  simp only
  rw [if_pos h1]

lemma updateMovement_advance (q : Player) (d : ℚ) (hm : q.isMoving = true)
    (h1 : ¬ 1 ≤ q.moveProgress + MOVE_SPEED * d) :
    updateMovement q d =
      { q with moveProgress := q.moveProgress + MOVE_SPEED * d,
               pixelX := canonicalPixel q.gridX +
                 (canonicalPixel q.targetGridX - canonicalPixel q.gridX) *
                   (1 - (1 - (q.moveProgress + MOVE_SPEED * d)) ^ 3),
               pixelY := canonicalPixel q.gridY +
                 (canonicalPixel q.targetGridY - canonicalPixel q.gridY) *
                   (1 - (1 - (q.moveProgress + MOVE_SPEED * d)) ^ 3) } := by
  rw [updateMovement, if_neg (by simp [hm])]
  simp only
  rw [if_neg h1]

/-- The state invariant maintained by `updateMovement` from any Transitioning
state: progress stays in `[0, 1]`, and strictly below 1 while still moving. -/
def MoveInv (q : Player) : Prop :=
  0 ≤ q.moveProgress ∧ q.moveProgress ≤ 1 ∧
  (q.isMoving = true → q.moveProgress < 1)

lemma moveInv_step (q : Player) (d : ℚ) (hq : MoveInv q) (hd : 0 ≤ d) :
    MoveInv (updateMovement q d) ∧
    q.moveProgress ≤ (updateMovement q d).moveProgress := by
  obtain ⟨h0, h1, h2⟩ := hq
  by_cases hm : q.isMoving = true
  · by_cases hc : 1 ≤ q.moveProgress + MOVE_SPEED * d
    · rw [updateMovement_complete q d hm hc]
      exact ⟨⟨by norm_num, by norm_num, by simp⟩, h1⟩
    · rw [updateMovement_advance q d hm hc]
      have hms : (0 : ℚ) ≤ MOVE_SPEED := by norm_num [MOVE_SPEED]
      have : 0 ≤ MOVE_SPEED * d := mul_nonneg hms hd
      exact ⟨⟨by simpa using by linarith, by simp; linarith,
              fun _ => by simp; linarith⟩, by simp; linarith⟩
  · rw [updateMovement_not_moving q d (by simpa using hm)]
    exact ⟨⟨h0, h1, h2⟩, le_refl _⟩

lemma movementTrace_head (p : Player) (ds : List ℚ) :
    (movementTrace p ds).head? = some p := by
  cases ds <;> rfl

lemma movementTrace_inv (ds : List ℚ) : ∀ (p : Player), MoveInv p →
    (∀ d ∈ ds, 0 ≤ d) →
    List.Chain' (fun a b => a.moveProgress ≤ b.moveProgress)
      (movementTrace p ds) ∧
    ∀ q ∈ movementTrace p ds, MoveInv q := by
  induction ds with
  | nil =>
    intro p hp _
    refine ⟨by simp [movementTrace], ?_⟩
    intro q hq
    rw [movementTrace] at hq
    simp at hq
    subst hq
    exact hp
  | cons d ds ih =>
    intro p hp hds
    have hd : 0 ≤ d := hds d (by simp)
    obtain ⟨hinv, hmono⟩ := moveInv_step p d hp hd
    obtain ⟨hchain, hall⟩ :=
      ih (updateMovement p d) hinv (fun x hx => hds x (by simp [hx]))
    constructor
    · rw [movementTrace]
      refine List.chain'_cons'.mpr ⟨?_, hchain⟩
      intro b hb
      rw [movementTrace_head] at hb
      simp at hb
      subst hb
      exact hmono
    · intro q hq
      rw [movementTrace] at hq
      rcases List.mem_cons.mp hq with hq | hq
      · subst hq; exact hp
      · exact hall q hq

/-- C3: from any Transitioning state (`isMoving`, progress in `[0, 1)`) and
any sequence of non-negative deltas, (1) successive `updateMovement` calls
never decrease the progress scalar, (2) no state of the trajectory ever holds
progress above 1 — no overshoot is carried into later frames — and (3) at any
call on a still-moving trajectory state whose accumulated progress reaches or
exceeds 1 the machine becomes exactly Idle: progress clamped to 1, current
cell set to the target cell, pixel position exactly the target cell's
canonical pixel position, moving flag false and direction `NONE`. -/
theorem updateMovement_progress_spec (p : Player) (ds : List ℚ)
    (hm : p.isMoving = true) (h0 : 0 ≤ p.moveProgress)
    (h1 : p.moveProgress < 1) (hds : ∀ d ∈ ds, 0 ≤ d) :
    List.Chain' (fun a b => a.moveProgress ≤ b.moveProgress)
      (movementTrace p ds) ∧
    (∀ q ∈ movementTrace p ds, q.moveProgress ≤ 1) ∧
    (∀ q ∈ movementTrace p ds, ∀ d : ℚ, 0 ≤ d → q.isMoving = true →
      1 ≤ q.moveProgress + MOVE_SPEED * d →
      updateMovement q d =
        { q with moveProgress := 1,
                 gridX := q.targetGridX, gridY := q.targetGridY,
                 pixelX := canonicalPixel q.targetGridX,
                 pixelY := canonicalPixel q.targetGridY,
                 isMoving := false, movingDirection := NONE }) := by
  obtain ⟨hchain, hall⟩ :=
    movementTrace_inv ds p ⟨h0, le_of_lt h1, fun _ => h1⟩ hds
  exact ⟨hchain, fun q hq => (hall q hq).2.1,
    fun q _ d _ hqm hcomp => updateMovement_complete q d hqm hcomp⟩

/-- A player one frame into a rightward Transition. -/
def c3Player : Player :=
  { Player.mk0 with isMoving := true, movingDirection := RIGHT,
                    targetGridX := 1 }

/-- Witness for C3: the moving player driven by two one-second frames. -/
theorem updateMovement_progress_spec_witness :
    (c3Player.isMoving = true ∧ 0 ≤ c3Player.moveProgress ∧
      c3Player.moveProgress < 1 ∧ ∀ d ∈ [(1 : ℚ), 1], 0 ≤ d) ∧
    (List.Chain' (fun a b => a.moveProgress ≤ b.moveProgress)
      (movementTrace c3Player [(1 : ℚ), 1]) ∧
    (∀ q ∈ movementTrace c3Player [(1 : ℚ), 1], q.moveProgress ≤ 1) ∧
    (∀ q ∈ movementTrace c3Player [(1 : ℚ), 1], ∀ d : ℚ, 0 ≤ d →
      q.isMoving = true → 1 ≤ q.moveProgress + MOVE_SPEED * d →
      updateMovement q d =
        { q with moveProgress := 1,
                 gridX := q.targetGridX, gridY := q.targetGridY,
                 pixelX := canonicalPixel q.targetGridX,
                 pixelY := canonicalPixel q.targetGridY,
                 isMoving := false, movingDirection := NONE })) :=
  ⟨⟨by decide, by decide, by decide, by decide⟩,
   updateMovement_progress_spec c3Player [(1 : ℚ), 1] (by decide) (by decide)
     (by decide) (by decide)⟩

/-! ## C9: the held-RIGHT three-frame scenario -/

/-- Iterate the per-frame update `frame` a given number of times with a fixed
raw input and per-frame delta. -/
def runFrames (g : Grid) (p : Player) (currentInput : Direction) (d : ℚ) :
    ℕ → Player
  | 0 => p
  | n + 1 => runFrames g (frame g p currentInput d) currentInput d n

/-- An everywhere-`FLOOR` dungeon grid for the concrete scenario. -/
def c9Grid : Grid := fun _ _ => TileType.FLOOR

/-- The scenario's initial player: freshly constructed, snapped to cell
`(5, 5)`. -/
def c9Start : Player := setGridPosition Player.mk0 5 5

/-- Counterexample for C9 as stated: in the per-frame loop `updateMovement`
runs *before* input handling, so the Transition started in frame 1 has not yet
been advanced when the frame ends — after frame 1 the progress is `0`, not the
claimed `0.16`. -/
theorem frame_scenario_counterexample :
    isWalkable c9Grid 5 5 = true ∧ isWalkable c9Grid 6 5 = true ∧
    (runFrames c9Grid c9Start RIGHT 0.02 1).isMoving = true ∧
    ¬ ((runFrames c9Grid c9Start RIGHT 0.02 1).moveProgress = 0.16) := by
  refine ⟨by decide, by decide, rfl, ?_⟩
  have h : (runFrames c9Grid c9Start RIGHT 0.02 1).moveProgress = 0 := rfl
  rw [h]
  norm_num

lemma canonicalPixel_succ_sub (x : ℤ) :
    canonicalPixel (x + 1) - canonicalPixel x = 40 := by
  unfold canonicalPixel TILE_SIZE PLAYER_SIZE
  push_cast
  ring

/-- C9 (amended): starting from an Idle player snapped to a walkable cell
whose right neighbour is walkable, holding `RIGHT` for three consecutive
frames of 0.02 s each (with `MOVE_SPEED = 8` cells/s): frame 1 starts a
Transition but leaves progress at `0` (the frame's movement update ran before
the move started); after frame 2 the progress is `0.16`; after frame 3 the
progress is `0.32`, still Transitioning, with pixel x strictly between the
start and target canonical x after frames 2 and 3, and pixel y unchanged. -/
theorem frame_hold_right_three_frames (g : Grid) (x y : ℤ)
    (hw0 : isWalkable g x y = true) (hw1 : isWalkable g (x + 1) y = true) :
    ((runFrames g (setGridPosition Player.mk0 x y) RIGHT 0.02 1).isMoving = true ∧
     (runFrames g (setGridPosition Player.mk0 x y) RIGHT 0.02 1).moveProgress = 0 ∧
     (runFrames g (setGridPosition Player.mk0 x y) RIGHT 0.02 1).targetGridX = x + 1 ∧
     (runFrames g (setGridPosition Player.mk0 x y) RIGHT 0.02 1).targetGridY = y) ∧
    ((runFrames g (setGridPosition Player.mk0 x y) RIGHT 0.02 2).isMoving = true ∧
     (runFrames g (setGridPosition Player.mk0 x y) RIGHT 0.02 2).moveProgress = 0.16 ∧
     canonicalPixel x < (runFrames g (setGridPosition Player.mk0 x y) RIGHT 0.02 2).pixelX ∧
     (runFrames g (setGridPosition Player.mk0 x y) RIGHT 0.02 2).pixelX < canonicalPixel (x + 1) ∧
     (runFrames g (setGridPosition Player.mk0 x y) RIGHT 0.02 2).pixelY = canonicalPixel y) ∧
    ((runFrames g (setGridPosition Player.mk0 x y) RIGHT 0.02 3).isMoving = true ∧
     (runFrames g (setGridPosition Player.mk0 x y) RIGHT 0.02 3).moveProgress = 0.32 ∧
     canonicalPixel x < (runFrames g (setGridPosition Player.mk0 x y) RIGHT 0.02 3).pixelX ∧
     (runFrames g (setGridPosition Player.mk0 x y) RIGHT 0.02 3).pixelX < canonicalPixel (x + 1) ∧
     (runFrames g (setGridPosition Player.mk0 x y) RIGHT 0.02 3).pixelY = canonicalPixel y) := by
  have e1 : runFrames g (setGridPosition Player.mk0 x y) RIGHT 0.02 1 =
      { gridX := x, gridY := y,
        pixelX := canonicalPixel x, pixelY := canonicalPixel y,
        isMoving := true, movingDirection := RIGHT, moveProgress := 0,
        targetGridX := x + 1, targetGridY := y,
        lastInputDirection := RIGHT, inputHoldTime := 0,
        continuousMoveEnabled := false } := by
    norm_num [runFrames, frame, updateMovement, updateInputTiming,
      shouldAcceptInput, getTargetFromDirection, startMove, setGridPosition,
      Player.mk0, RIGHT, NONE, UP, DOWN, LEFT, hw1,
      (show (8 : ℕ) &&& 1 = 0 by decide), (show (8 : ℕ) &&& 2 = 0 by decide),
      (show (8 : ℕ) &&& 4 = 0 by decide),
      (show ¬ ((8 : ℕ) &&& 8 = 0) by decide)]
  have e2 : runFrames g (setGridPosition Player.mk0 x y) RIGHT 0.02 2 =
      { gridX := x, gridY := y,
        pixelX := canonicalPixel x +
          (canonicalPixel (x + 1) - canonicalPixel x) * (1 - (1 - 0.16) ^ 3),
        pixelY := canonicalPixel y +
          (canonicalPixel y - canonicalPixel y) * (1 - (1 - 0.16) ^ 3),
        isMoving := true, movingDirection := RIGHT, moveProgress := 0.16,
        targetGridX := x + 1, targetGridY := y,
        lastInputDirection := RIGHT, inputHoldTime := 0.02,
        continuousMoveEnabled := false } := by
    show runFrames g (runFrames g (setGridPosition Player.mk0 x y) RIGHT 0.02 1)
      RIGHT 0.02 1 = _
    rw [e1]
    norm_num [runFrames, frame, updateMovement, updateInputTiming,
      shouldAcceptInput, MOVE_SPEED, INPUT_BUFFER_TIME, RIGHT, NONE]
  have e3 : runFrames g (setGridPosition Player.mk0 x y) RIGHT 0.02 3 =
      { gridX := x, gridY := y,
        pixelX := canonicalPixel x +
          (canonicalPixel (x + 1) - canonicalPixel x) * (1 - (1 - 0.32) ^ 3),
        pixelY := canonicalPixel y +
          (canonicalPixel y - canonicalPixel y) * (1 - (1 - 0.32) ^ 3),
        isMoving := true, movingDirection := RIGHT, moveProgress := 0.32,
        targetGridX := x + 1, targetGridY := y,
        lastInputDirection := RIGHT, inputHoldTime := 0.04,
        continuousMoveEnabled := false } := by
    show runFrames g (runFrames g (setGridPosition Player.mk0 x y) RIGHT 0.02 2)
      RIGHT 0.02 1 = _
    rw [e2]
    norm_num [runFrames, frame, updateMovement, updateInputTiming,
      shouldAcceptInput, MOVE_SPEED, INPUT_BUFFER_TIME, RIGHT, NONE]
  have hd : canonicalPixel (x + 1) - canonicalPixel x = 40 :=
    canonicalPixel_succ_sub x
  rw [e1, e2, e3]
  refine ⟨⟨rfl, rfl, rfl, rfl⟩, ⟨rfl, rfl, ?_, ?_, by norm_num⟩,
          ⟨rfl, rfl, ?_, ?_, by norm_num⟩⟩ <;>
    · dsimp only
      nlinarith [hd]

/-- Witness for C9 (amended) on the all-`FLOOR` grid with the player snapped
to `(5, 5)`. -/
theorem frame_hold_right_three_frames_witness :
    isWalkable c9Grid 5 5 = true ∧ isWalkable c9Grid 6 5 = true ∧
    ((runFrames c9Grid (setGridPosition Player.mk0 5 5) RIGHT 0.02 2).isMoving = true ∧
     (runFrames c9Grid (setGridPosition Player.mk0 5 5) RIGHT 0.02 2).moveProgress = 0.16) ∧
    ((runFrames c9Grid (setGridPosition Player.mk0 5 5) RIGHT 0.02 3).isMoving = true ∧
     (runFrames c9Grid (setGridPosition Player.mk0 5 5) RIGHT 0.02 3).moveProgress = 0.32) :=
  ⟨by decide, by decide,
   ⟨((frame_hold_right_three_frames c9Grid 5 5 (by decide) (by decide)).2.1).1,
    ((frame_hold_right_three_frames c9Grid 5 5 (by decide) (by decide)).2.1).2.1⟩,
   ⟨((frame_hold_right_three_frames c9Grid 5 5 (by decide) (by decide)).2.2).1,
    ((frame_hold_right_three_frames c9Grid 5 5 (by decide) (by decide)).2.2).2.1⟩⟩

/-! ## Pointwise characterisations of the carving loops -/

lemma setCell_apply (g : Grid) (y x : ℤ) (t : TileType) (y' x' : ℤ) :
    setCell g y x t y' x' = if y' = y ∧ x' = x then t else g y' x' := rfl

lemma carveRowFrom_apply (n : ℕ) :
    ∀ (g : Grid) (y x0 y' x' : ℤ),
      carveRowFrom g y x0 n y' x' =
        if y' = y ∧ x0 ≤ x' ∧ x' < x0 + n ∧
           0 ≤ y ∧ y < DUNGEON_HEIGHT ∧ 0 ≤ x' ∧ x' < DUNGEON_WIDTH
        then TileType.FLOOR else g y' x' := by
  induction n with
  | zero =>
    intro g y x0 y' x'
    rw [carveRowFrom, if_neg]
    rintro ⟨_, h1, h2, _⟩
    omega
  | succ n ih =>
    intro g y x0 y' x'
    simp only [carveRowFrom]
    rw [ih]
    simp only [apply_ite (fun f : Grid => f y' x'), setCell_apply]
    split_ifs <;> first | rfl | omega

lemma carveRoomRows_apply (n : ℕ) :
    ∀ (g : Grid) (room : Room) (y y' x' : ℤ),
      carveRoomRows g room y n y' x' =
        if y ≤ y' ∧ y' < y + n ∧ room.x ≤ x' ∧ x' < room.x + (room.width.toNat : ℤ) ∧
           0 ≤ y' ∧ y' < DUNGEON_HEIGHT ∧ 0 ≤ x' ∧ x' < DUNGEON_WIDTH
        then TileType.FLOOR else g y' x' := by
  induction n with
  | zero =>
    intro g room y y' x'
    rw [carveRoomRows, if_neg]
    rintro ⟨h1, h2, _⟩
    omega
  | succ n ih =>
    intro g room y y' x'
    simp only [carveRoomRows]
    rw [ih, carveRowFrom_apply]
    split_ifs <;> first | rfl | omega

lemma carveRoom_apply (g : Grid) (room : Room) (y' x' : ℤ) :
    carveRoom g room y' x' =
      if room.y ≤ y' ∧ y' < room.y + (room.height.toNat : ℤ) ∧
         room.x ≤ x' ∧ x' < room.x + (room.width.toNat : ℤ) ∧
         0 ≤ y' ∧ y' < DUNGEON_HEIGHT ∧ 0 ≤ x' ∧ x' < DUNGEON_WIDTH
      then TileType.FLOOR else g y' x' := by
  rw [carveRoom, carveRoomRows_apply]

/-- The effect relation of corridor carving: each cell is either unchanged or
was `WALL` and became `CORRIDOR`. -/
def CorridorOnly (g g' : Grid) : Prop :=
  ∀ y x, g' y x = g y x ∨
    (g y x = TileType.WALL ∧ g' y x = TileType.CORRIDOR)

lemma corridorOnly_refl (g : Grid) : CorridorOnly g g := fun _ _ => Or.inl rfl

lemma corridorOnly_trans {g1 g2 g3 : Grid} (h12 : CorridorOnly g1 g2)
    (h23 : CorridorOnly g2 g3) : CorridorOnly g1 g3 := by
  intro y x
  rcases h23 y x with h' | ⟨hw', hc'⟩
  · rcases h12 y x with h | ⟨hw, hc⟩
    · exact Or.inl (h'.trans h)
    · exact Or.inr ⟨hw, h'.trans hc⟩
  · rcases h12 y x with h | ⟨hw, hc⟩
    · exact Or.inr ⟨h.symm.trans hw', hc'⟩
    · rw [hc] at hw'
      exact absurd hw' (by simp)

lemma corridorOnly_carveStep (g : Grid) (y x : ℤ) (C : Prop) [Decidable C] :
    CorridorOnly g
      (if C ∧ g y x = TileType.WALL then setCell g y x TileType.CORRIDOR
       else g) := by
  intro y' x'
  split_ifs with h
  · rw [setCell_apply]
    split_ifs with h2
    · obtain ⟨hy, hx⟩ := h2
      subst hy; subst hx
      exact Or.inr ⟨h.2, rfl⟩
    · exact Or.inl rfl
  · exact Or.inl rfl

lemma carveHFrom_corridorOnly (n : ℕ) :
    ∀ (g : Grid) (y x0 : ℤ), CorridorOnly g (carveHFrom g y x0 n) := by
  induction n with
  | zero => intro g y x0; exact corridorOnly_refl g
  | succ n ih =>
    intro g y x0
    rw [carveHFrom]
    exact corridorOnly_trans
      (corridorOnly_carveStep g y x0 (0 ≤ x0 ∧ x0 < DUNGEON_WIDTH ∧
        0 ≤ y ∧ y < DUNGEON_HEIGHT)) (ih _ y (x0 + 1))

lemma carveVFrom_corridorOnly (n : ℕ) :
    ∀ (g : Grid) (x y0 : ℤ), CorridorOnly g (carveVFrom g x y0 n) := by
  induction n with
  | zero => intro g x y0; exact corridorOnly_refl g
  | succ n ih =>
    intro g x y0
    rw [carveVFrom]
    exact corridorOnly_trans
      (corridorOnly_carveStep g y0 x (0 ≤ x ∧ x < DUNGEON_WIDTH ∧
        0 ≤ y0 ∧ y0 < DUNGEON_HEIGHT)) (ih _ x (y0 + 1))

lemma carveHorizontalCorridor_corridorOnly (g : Grid) (x1 x2 y : ℤ) :
    CorridorOnly g (carveHorizontalCorridor g x1 x2 y) :=
  carveHFrom_corridorOnly _ g y (min x1 x2)

lemma carveVerticalCorridor_corridorOnly (g : Grid) (y1 y2 x : ℤ) :
    CorridorOnly g (carveVerticalCorridor g y1 y2 x) :=
  carveVFrom_corridorOnly _ g x (min y1 y2)

lemma carveHFrom_unchanged (n : ℕ) :
    ∀ (g : Grid) (y x0 y' x' : ℤ), ¬ (y' = y ∧ x0 ≤ x' ∧ x' < x0 + n) →
      carveHFrom g y x0 n y' x' = g y' x' := by
  induction n with
  | zero => intro g y x0 y' x' _; rfl
  | succ n ih =>
    intro g y x0 y' x' h
    rw [carveHFrom]
    rw [ih _ y (x0 + 1) y' x' (by push_cast at h ⊢; omega)]
    split_ifs with h0
    · rw [setCell_apply, if_neg (by push_cast at h; omega)]
    · rfl

lemma carveVFrom_unchanged (n : ℕ) :
    ∀ (g : Grid) (x y0 y' x' : ℤ), ¬ (x' = x ∧ y0 ≤ y' ∧ y' < y0 + n) →
      carveVFrom g x y0 n y' x' = g y' x' := by
  induction n with
  | zero => intro g x y0 y' x' _; rfl
  | succ n ih =>
    intro g x y0 y' x' h
    rw [carveVFrom]
    rw [ih _ x (y0 + 1) y' x' (by push_cast at h ⊢; omega)]
    split_ifs with h0
    · rw [setCell_apply, if_neg (by push_cast at h; omega)]
    · rfl

/-- A cell kind traversable by the player path of C2: Floor or Corridor,
equivalently not Wall. -/
def Walk (t : TileType) : Prop := t = TileType.FLOOR ∨ t = TileType.CORRIDOR

lemma walk_of_ne_wall {t : TileType} (h : t ≠ TileType.WALL) : Walk t := by
  cases t
  · exact absurd rfl h
  · exact Or.inl rfl
  · exact Or.inr rfl

lemma corridorOnly_walk {g g' : Grid} (h : CorridorOnly g g') (y x : ℤ) :
    Walk (g y x) → Walk (g' y x) := by
  intro hw
  rcases h y x with he | ⟨_, hc⟩
  · rw [he]; exact hw
  · rw [hc]; exact Or.inr rfl

lemma carveHFrom_walk_on (n : ℕ) :
    ∀ (g : Grid) (y x0 x' : ℤ), x0 ≤ x' → x' < x0 + n →
      0 ≤ x' → x' < DUNGEON_WIDTH → 0 ≤ y → y < DUNGEON_HEIGHT →
      Walk (carveHFrom g y x0 n y x') := by
  induction n with
  | zero => intro g y x0 x' h1 h2 _ _ _ _; exfalso; omega
  | succ n ih =>
    intro g y x0 x' h1 h2 hb1 hb2 hb3 hb4
    rw [carveHFrom]
    by_cases hx : x' = x0
    · subst hx
      refine corridorOnly_walk (carveHFrom_corridorOnly n _ y (x' + 1)) y x' ?_
      split_ifs with h0
      · rw [setCell_apply, if_pos ⟨rfl, rfl⟩]
        exact Or.inr rfl
      · refine walk_of_ne_wall fun hw => h0 ⟨⟨hb1, hb2, hb3, hb4⟩, hw⟩
    · exact ih _ y (x0 + 1) x' (by omega) (by push_cast at h2 ⊢; omega) hb1 hb2 hb3 hb4

lemma carveVFrom_walk_on (n : ℕ) :
    ∀ (g : Grid) (x y0 y' : ℤ), y0 ≤ y' → y' < y0 + n →
      0 ≤ x → x < DUNGEON_WIDTH → 0 ≤ y' → y' < DUNGEON_HEIGHT →
      Walk (carveVFrom g x y0 n y' x) := by
  induction n with
  | zero => intro g x y0 y' h1 h2 _ _ _ _; exfalso; omega
  | succ n ih =>
    intro g x y0 y' h1 h2 hb1 hb2 hb3 hb4
    rw [carveVFrom]
    by_cases hy : y' = y0
    · subst hy
      refine corridorOnly_walk (carveVFrom_corridorOnly n _ x (y' + 1)) y' x ?_
      split_ifs with h0
      · rw [setCell_apply, if_pos ⟨rfl, rfl⟩]
        exact Or.inr rfl
      · refine walk_of_ne_wall fun hw => h0 ⟨⟨hb1, hb2, hb3, hb4⟩, hw⟩
    · exact ih _ x (y0 + 1) y' (by omega) (by push_cast at h2 ⊢; omega) hb1 hb2 hb3 hb4

lemma carveHorizontalCorridor_walk_on (g : Grid) (x1 x2 y x' : ℤ)
    (h1 : min x1 x2 ≤ x') (h2 : x' ≤ max x1 x2)
    (hb1 : 0 ≤ x') (hb2 : x' < DUNGEON_WIDTH)
    (hb3 : 0 ≤ y) (hb4 : y < DUNGEON_HEIGHT) :
    Walk (carveHorizontalCorridor g x1 x2 y y x') := by
  rw [carveHorizontalCorridor]
  have h5 := abs_cases (x1 - x2)
  exact carveHFrom_walk_on _ g y (min x1 x2) x' h1 (by push_cast; omega)
    hb1 hb2 hb3 hb4

lemma carveVerticalCorridor_walk_on (g : Grid) (y1 y2 x y' : ℤ)
    (h1 : min y1 y2 ≤ y') (h2 : y' ≤ max y1 y2)
    (hb1 : 0 ≤ x) (hb2 : x < DUNGEON_WIDTH)
    (hb3 : 0 ≤ y') (hb4 : y' < DUNGEON_HEIGHT) :
    Walk (carveVerticalCorridor g y1 y2 x y' x) := by
  rw [carveVerticalCorridor]
  have h5 := abs_cases (y1 - y2)
  exact carveVFrom_walk_on _ g x (min y1 y2) y' h1 (by push_cast; omega)
    hb1 hb2 hb3 hb4

/-! ## C6: corridor carving frame conditions -/

/-- C6: corridor carving (both segment functions) changes only cells whose
current kind is `WALL`, setting them to `CORRIDOR`; every cell that is `FLOOR`
before the call is still `FLOOR` after it, and every cell off the carved
segment is unchanged — corridors never overwrite room floors. -/
theorem corridor_carving_frame (g : Grid) (x1 x2 cy y1 y2 cx y' x' : ℤ) :
    (carveHorizontalCorridor g x1 x2 cy y' x' = g y' x' ∨
      (g y' x' = TileType.WALL ∧
        carveHorizontalCorridor g x1 x2 cy y' x' = TileType.CORRIDOR)) ∧
    (g y' x' = TileType.FLOOR →
      carveHorizontalCorridor g x1 x2 cy y' x' = TileType.FLOOR) ∧
    (¬ (y' = cy ∧ min x1 x2 ≤ x' ∧ x' ≤ max x1 x2) →
      carveHorizontalCorridor g x1 x2 cy y' x' = g y' x') ∧
    (carveVerticalCorridor g y1 y2 cx y' x' = g y' x' ∨
      (g y' x' = TileType.WALL ∧
        carveVerticalCorridor g y1 y2 cx y' x' = TileType.CORRIDOR)) ∧
    (g y' x' = TileType.FLOOR →
      carveVerticalCorridor g y1 y2 cx y' x' = TileType.FLOOR) ∧
    (¬ (x' = cx ∧ min y1 y2 ≤ y' ∧ y' ≤ max y1 y2) →
      carveVerticalCorridor g y1 y2 cx y' x' = g y' x') := by
  have hH := carveHorizontalCorridor_corridorOnly g x1 x2 cy y' x'
  have hV := carveVerticalCorridor_corridorOnly g y1 y2 cx y' x'
  refine ⟨hH, ?_, ?_, hV, ?_, ?_⟩
  · intro hf
    rcases hH with he | ⟨hw, _⟩
    · rw [he, hf]
    · rw [hf] at hw; exact absurd hw (by simp)
  · intro hoff
    rw [carveHorizontalCorridor]
    have h5 := abs_cases (x1 - x2)
    exact carveHFrom_unchanged _ g cy (min x1 x2) y' x'
      (by push_cast; omega)
  · intro hf
    rcases hV with he | ⟨hw, _⟩
    · rw [he, hf]
    · rw [hf] at hw; exact absurd hw (by simp)
  · intro hoff
    rw [carveVerticalCorridor]
    have h5 := abs_cases (y1 - y2)
    exact carveVFrom_unchanged _ g cx (min y1 y2) y' x'
      (by push_cast; omega)

/-- A concrete grid with a single `FLOOR` cell at `(x, y) = (1, 0)`, used to
witness C6. -/
def c6Grid : Grid := fun y x => if y = 0 ∧ x = 1 then TileType.FLOOR
  else TileType.WALL

/-- Witness for C6: carving the horizontal segment `x ∈ [0, 2]` of row 0 and
the vertical segment `y ∈ [0, 2]` of column 0 over `c6Grid`, observed at the
on-segment `FLOOR` cell `(1, 0)` and at the off-segment cell `(5, 7)`. -/
theorem corridor_carving_frame_witness :
    (c6Grid 0 1 = TileType.FLOOR →
      carveHorizontalCorridor c6Grid 0 2 0 0 1 = TileType.FLOOR) ∧
    (¬ ((7 : ℤ) = 0 ∧ min (0 : ℤ) 2 ≤ 5 ∧ (5 : ℤ) ≤ max 0 2) →
      carveHorizontalCorridor c6Grid 0 2 0 7 5 = c6Grid 7 5) ∧
    (¬ ((5 : ℤ) = 0 ∧ min (0 : ℤ) 2 ≤ 7 ∧ (7 : ℤ) ≤ max 0 2) →
      carveVerticalCorridor c6Grid 0 2 0 7 5 = c6Grid 7 5) :=
  ⟨(corridor_carving_frame c6Grid 0 2 0 0 2 0 0 1).2.1,
   (corridor_carving_frame c6Grid 0 2 0 0 2 0 7 5).2.2.1,
   (corridor_carving_frame c6Grid 0 2 0 0 2 0 7 5).2.2.2.2.2⟩

/-! ## Reachability through Floor/Corridor cells -/

/-- 4-connected adjacency of cells; a cell is a pair `(x, y)`. -/
def Adj (p q : ℤ × ℤ) : Prop :=
  (p.2 = q.2 ∧ (q.1 = p.1 + 1 ∨ p.1 = q.1 + 1)) ∨
  (p.1 = q.1 ∧ (q.2 = p.2 + 1 ∨ p.2 = q.2 + 1))

/-- One traversable step: 4-adjacent cells that are both Floor or Corridor. -/
def Step (g : Grid) (p q : ℤ × ℤ) : Prop :=
  Adj p q ∧ Walk (g p.2 p.1) ∧ Walk (g q.2 q.1)

/-- Reachability by a path of grid cells whose kinds are all Floor or
Corridor, under 4-connected adjacency. -/
def Reach (g : Grid) : ℤ × ℤ → ℤ × ℤ → Prop := Relation.ReflTransGen (Step g)

lemma step_symm (g : Grid) : Symmetric (Step g) := by
  rintro p q ⟨hadj, hp, hq⟩
  refine ⟨?_, hq, hp⟩
  rcases hadj with ⟨h1, h2⟩ | ⟨h1, h2⟩
  · exact Or.inl ⟨h1.symm, h2.symm⟩
  · exact Or.inr ⟨h1.symm, h2.symm⟩

lemma reach_symm {g : Grid} {p q : ℤ × ℤ} (h : Reach g p q) : Reach g q p :=
  Relation.ReflTransGen.symmetric (step_symm g) h

lemma reach_mono {g g' : Grid} (h : ∀ y x, Walk (g y x) → Walk (g' y x))
    {p q : ℤ × ℤ} (hr : Reach g p q) : Reach g' p q :=
  Relation.ReflTransGen.mono
    (fun a b ⟨hadj, ha, hb⟩ => ⟨hadj, h _ _ ha, h _ _ hb⟩) hr

lemma reach_right (g : Grid) (y : ℤ) : ∀ (n : ℕ) (x : ℤ),
    (∀ i : ℤ, x ≤ i → i ≤ x + n → Walk (g y i)) →
    Reach g (x, y) (x + n, y) := by
  intro n
  induction n with
  | zero =>
    intro x _
    simpa using Relation.ReflTransGen.refl
  | succ n ih =>
    intro x h
    have hr : Reach g (x, y) (x + n, y) :=
      ih x fun i h1 h2 => h i h1 (by push_cast at h2 ⊢; omega)
    refine hr.tail ⟨Or.inl ⟨rfl, Or.inl (by push_cast; ring)⟩, ?_, ?_⟩
    · exact h (x + n) (by omega) (by push_cast; omega)
    · exact h (x + (n + 1)) (by push_cast; omega) (by push_cast; omega)

lemma reach_down (g : Grid) (x : ℤ) : ∀ (n : ℕ) (y : ℤ),
    (∀ j : ℤ, y ≤ j → j ≤ y + n → Walk (g j x)) →
    Reach g (x, y) (x, y + n) := by
  intro n
  induction n with
  | zero =>
    intro y _
    simpa using Relation.ReflTransGen.refl
  | succ n ih =>
    intro y h
    have hr : Reach g (x, y) (x, y + n) :=
      ih y fun j h1 h2 => h j h1 (by push_cast at h2 ⊢; omega)
    refine hr.tail ⟨Or.inr ⟨rfl, Or.inl (by push_cast; ring)⟩, ?_, ?_⟩
    · exact h (y + n) (by omega) (by push_cast; omega)
    · exact h (y + (n + 1)) (by push_cast; omega) (by push_cast; omega)

lemma reach_horiz (g : Grid) (x1 x2 y : ℤ)
    (h : ∀ i : ℤ, min x1 x2 ≤ i → i ≤ max x1 x2 → Walk (g y i)) :
    Reach g (x1, y) (x2, y) := by
  rcases le_total x1 x2 with h12 | h12
  · have hn : x1 + (((x2 - x1).toNat : ℤ)) = x2 := by omega
    have hr := reach_right g y (x2 - x1).toNat x1
      (fun i h1 h2 => h i (by omega) (by omega))
    rwa [hn] at hr
  · have hn : x2 + (((x1 - x2).toNat : ℤ)) = x1 := by omega
    have hr := reach_right g y (x1 - x2).toNat x2
      (fun i h1 h2 => h i (by omega) (by omega))
    rw [hn] at hr
    exact reach_symm hr

lemma reach_vert (g : Grid) (y1 y2 x : ℤ)
    (h : ∀ j : ℤ, min y1 y2 ≤ j → j ≤ max y1 y2 → Walk (g j x)) :
    Reach g (x, y1) (x, y2) := by
  rcases le_total y1 y2 with h12 | h12
  · have hn : y1 + (((y2 - y1).toNat : ℤ)) = y2 := by omega
    have hr := reach_down g x (y2 - y1).toNat y1
      (fun j h1 h2 => h j (by omega) (by omega))
    rwa [hn] at hr
  · have hn : y2 + (((y1 - y2).toNat : ℤ)) = y1 := by omega
    have hr := reach_down g x (y1 - y2).toNat y2
      (fun j h1 h2 => h j (by omega) (by omega))
    rw [hn] at hr
    exact reach_symm hr

/-- Membership of a cell `(x, y)` in a room's rectangle. -/
def InRoomP (room : Room) (p : ℤ × ℤ) : Prop :=
  room.x ≤ p.1 ∧ p.1 < room.x + room.width ∧
  room.y ≤ p.2 ∧ p.2 < room.y + room.height

instance (room : Room) (p : ℤ × ℤ) : Decidable (InRoomP room p) := by
  unfold InRoomP
  exact inferInstance

/-- Every room the generator places is strictly inside the grid with a 1-cell
margin and has positive extent. -/
def RoomInBounds (room : Room) : Prop :=
  1 ≤ room.x ∧ 1 ≤ room.y ∧ 1 ≤ room.width ∧ 1 ≤ room.height ∧
  room.x + room.width ≤ DUNGEON_WIDTH - 1 ∧
  room.y + room.height ≤ DUNGEON_HEIGHT - 1

lemma center_in_room (room : Room) (h : RoomInBounds room) :
    InRoomP room (room.x + room.width / 2, room.y + room.height / 2) := by
  obtain ⟨h1, h2, h3, h4, h5, h6⟩ := h
  exact ⟨by omega, by omega, by omega, by omega⟩

lemma reach_in_room (g : Grid) (room : Room)
    (hfl : ∀ p : ℤ × ℤ, InRoomP room p → g p.2 p.1 = TileType.FLOOR) :
    ∀ p q : ℤ × ℤ, InRoomP room p → InRoomP room q → Reach g p q := by
  rintro ⟨px, py⟩ ⟨qx, qy⟩ ⟨hp1, hp2, hp3, hp4⟩ ⟨hq1, hq2, hq3, hq4⟩
  have h1 : Reach g (px, py) (qx, py) := by
    refine reach_horiz g px qx py fun i hi1 hi2 => ?_
    have hf := hfl (i, py) ⟨by simp; omega, by simp; omega, by simpa using hp3,
      by simpa using hp4⟩
    rw [show g py i = TileType.FLOOR from hf]
    exact Or.inl rfl
  have h2 : Reach g (qx, py) (qx, qy) := by
    refine reach_vert g py qy qx fun j hj1 hj2 => ?_
    have hf := hfl (qx, j) ⟨by simpa using hq1, by simpa using hq2,
      by simp; omega, by simp; omega⟩
    rw [show g j qx = TileType.FLOOR from hf]
    exact Or.inl rfl
  exact h1.trans h2

/-- An L-shaped connection, horizontal segment first (the `rand() % 2 == 0`
branch of `generateDungeon`): after carving the two segments, the first center
reaches the second. -/
lemma corridor_connects_HV (g : Grid) (cx1 cy1 cx2 cy2 : ℤ)
    (hx1 : 0 ≤ cx1) (hx1' : cx1 < DUNGEON_WIDTH)
    (hx2 : 0 ≤ cx2) (hx2' : cx2 < DUNGEON_WIDTH)
    (hy1 : 0 ≤ cy1) (hy1' : cy1 < DUNGEON_HEIGHT)
    (hy2 : 0 ≤ cy2) (hy2' : cy2 < DUNGEON_HEIGHT) :
    Reach (carveVerticalCorridor (carveHorizontalCorridor g cx1 cx2 cy1)
        cy1 cy2 cx2) (cx1, cy1) (cx2, cy2) := by
  have hr1 : Reach (carveVerticalCorridor (carveHorizontalCorridor g cx1 cx2 cy1)
      cy1 cy2 cx2) (cx1, cy1) (cx2, cy1) := by
    refine reach_horiz _ cx1 cx2 cy1 fun i h1 h2 => ?_
    refine corridorOnly_walk
      (carveVerticalCorridor_corridorOnly _ cy1 cy2 cx2) cy1 i ?_
    exact carveHorizontalCorridor_walk_on g cx1 cx2 cy1 i h1 h2
      (by omega) (by omega) hy1 hy1'
  have hr2 : Reach (carveVerticalCorridor (carveHorizontalCorridor g cx1 cx2 cy1)
      cy1 cy2 cx2) (cx2, cy1) (cx2, cy2) := by
    refine reach_vert _ cy1 cy2 cx2 fun j h1 h2 => ?_
    exact carveVerticalCorridor_walk_on _ cy1 cy2 cx2 j h1 h2
      hx2 hx2' (by omega) (by omega)
  exact hr1.trans hr2

/-- An L-shaped connection, vertical segment first (the other branch). -/
lemma corridor_connects_VH (g : Grid) (cx1 cy1 cx2 cy2 : ℤ)
    (hx1 : 0 ≤ cx1) (hx1' : cx1 < DUNGEON_WIDTH)
    (hx2 : 0 ≤ cx2) (hx2' : cx2 < DUNGEON_WIDTH)
    (hy1 : 0 ≤ cy1) (hy1' : cy1 < DUNGEON_HEIGHT)
    (hy2 : 0 ≤ cy2) (hy2' : cy2 < DUNGEON_HEIGHT) :
    Reach (carveHorizontalCorridor (carveVerticalCorridor g cy1 cy2 cx1)
        cx1 cx2 cy2) (cx1, cy1) (cx2, cy2) := by
  have hr1 : Reach (carveHorizontalCorridor (carveVerticalCorridor g cy1 cy2 cx1)
      cx1 cx2 cy2) (cx1, cy1) (cx1, cy2) := by
    refine reach_vert _ cy1 cy2 cx1 fun j h1 h2 => ?_
    refine corridorOnly_walk
      (carveHorizontalCorridor_corridorOnly _ cx1 cx2 cy2) j cx1 ?_
    exact carveVerticalCorridor_walk_on g cy1 cy2 cx1 j h1 h2
      hx1 hx1' (by omega) (by omega)
  have hr2 : Reach (carveHorizontalCorridor (carveVerticalCorridor g cy1 cy2 cx1)
      cx1 cx2 cy2) (cx1, cy2) (cx2, cy2) := by
    refine reach_horiz _ cx1 cx2 cy2 fun i h1 h2 => ?_
    exact carveHorizontalCorridor_walk_on _ cx1 cx2 cy2 i h1 h2
      (by omega) (by omega) hy2 hy2'
  exact hr1.trans hr2

/-! ## The generator invariant -/

lemma sampledRoom_inBounds (r : Rng) (k : ℕ) :
    RoomInBounds (sampledRoom r k) := by
  have e1a : (0 : ℤ) ≤ (r k : ℤ) % 6 := Int.emod_nonneg _ (by norm_num)
  have e1b : (r k : ℤ) % 6 < 6 := Int.emod_lt_of_pos _ (by norm_num)
  have e2a : (0 : ℤ) ≤ (r (k + 1) : ℤ) % 6 := Int.emod_nonneg _ (by norm_num)
  have e2b : (r (k + 1) : ℤ) % 6 < 6 := Int.emod_lt_of_pos _ (by norm_num)
  have hmx : (0 : ℤ) < 40 - (4 + (r k : ℤ) % 6) - 2 := by omega
  have hmy : (0 : ℤ) < 30 - (4 + (r (k + 1) : ℤ) % 6) - 2 := by omega
  have e3a : (0 : ℤ) ≤ (r (k + 2) : ℤ) % (40 - (4 + (r k : ℤ) % 6) - 2) :=
    Int.emod_nonneg _ (by omega)
  have e3b : (r (k + 2) : ℤ) % (40 - (4 + (r k : ℤ) % 6) - 2) <
      40 - (4 + (r k : ℤ) % 6) - 2 := Int.emod_lt_of_pos _ hmx
  have e4a : (0 : ℤ) ≤ (r (k + 3) : ℤ) % (30 - (4 + (r (k + 1) : ℤ) % 6) - 2) :=
    Int.emod_nonneg _ (by omega)
  have e4b : (r (k + 3) : ℤ) % (30 - (4 + (r (k + 1) : ℤ) % 6) - 2) <
      30 - (4 + (r (k + 1) : ℤ) % 6) - 2 := Int.emod_lt_of_pos _ hmy
  simp only [RoomInBounds, sampledRoom, DUNGEON_WIDTH, DUNGEON_HEIGHT]
  refine ⟨by omega, by omega, by omega, by omega, by omega, by omega⟩

lemma roomOverlaps_eq_false (newRoom : Room) (rooms : List Room) (padding : ℤ)
    (h : roomOverlaps newRoom rooms padding = false) :
    ∀ room ∈ rooms, roomOverlapsWith newRoom room padding = false := by
  intro room hm
  rw [roomOverlaps, List.any_eq_false] at h
  simpa using h room hm

lemma carveRoom_walk (g : Grid) (room : Room) (y x : ℤ) (h : Walk (g y x)) :
    Walk (carveRoom g room y x) := by
  rw [carveRoom_apply]
  split_ifs
  · exact Or.inl rfl
  · exact h

lemma carveRoom_preserves_floor (g : Grid) (room : Room) (y x : ℤ)
    (h : g y x = TileType.FLOOR) : carveRoom g room y x = TileType.FLOOR := by
  rw [carveRoom_apply]
  split_ifs
  · rfl
  · exact h

lemma carveRoom_floor_in (g : Grid) (room : Room) (hb : RoomInBounds room)
    (p : ℤ × ℤ) (hp : InRoomP room p) :
    carveRoom g room p.2 p.1 = TileType.FLOOR := by
  obtain ⟨h1, h2, h3, h4, h5, h6⟩ := hb
  obtain ⟨q1, q2, q3, q4⟩ := hp
  rw [carveRoom_apply, if_pos]
  refine ⟨by omega, by omega, by omega, by omega, by omega, by omega, by omega,
    by omega⟩

lemma corridorOnly_floor {g g' : Grid} (h : CorridorOnly g g') (y x : ℤ)
    (hf : g y x = TileType.FLOOR) : g' y x = TileType.FLOOR := by
  rcases h y x with he | ⟨hw, _⟩
  · rw [he, hf]
  · rw [hf] at hw
    exact absurd hw (by simp)

/-- The invariant maintained over the room list and grid by every
`generateDungeon` placement step. -/
structure GenInv (s : GenState) : Prop where
  pairwise : s.rooms.Pairwise fun a b => roomOverlapsWith a b 2 = false
  bounds : ∀ room ∈ s.rooms, RoomInBounds room
  floors : ∀ room ∈ s.rooms, ∀ p : ℤ × ℤ, InRoomP room p →
    s.grid p.2 p.1 = TileType.FLOOR
  connected : ∀ r1 ∈ s.rooms, ∀ r2 ∈ s.rooms, ∀ p1 p2 : ℤ × ℤ,
    InRoomP r1 p1 → InRoomP r2 p2 → Reach s.grid p1 p2

lemma genInv_init (g0 : Grid) : GenInv ⟨g0, []⟩ where
  pairwise := List.Pairwise.nil
  bounds := by simp
  floors := by simp
  connected := by simp

/-- Core of the placement-step preservation in the connecting case: any new
grid `g2` that preserves walkable and Floor cells of `g`, makes the whole new
room Floor, and connects the previous room's center to the new room's center,
extends the invariant to the grown room list. -/
lemma genInv_extend (g g2 : Grid) (prev : Room) (rest : List Room) (nr : Room)
    (h : GenInv ⟨g, prev :: rest⟩)
    (hnb : RoomInBounds nr)
    (hnoov : ∀ room ∈ prev :: rest, roomOverlapsWith nr room 2 = false)
    (hmono : ∀ y x, Walk (g y x) → Walk (g2 y x))
    (hfloorpres : ∀ y x, g y x = TileType.FLOOR → g2 y x = TileType.FLOOR)
    (hnrfloor : ∀ p : ℤ × ℤ, InRoomP nr p → g2 p.2 p.1 = TileType.FLOOR)
    (hcenters : Reach g2 (prev.x + prev.width / 2, prev.y + prev.height / 2)
      (nr.x + nr.width / 2, nr.y + nr.height / 2)) :
    GenInv ⟨g2, nr :: prev :: rest⟩ := by
  have hlift : ∀ p1 p2 : ℤ × ℤ, Reach g p1 p2 → Reach g2 p1 p2 :=
    fun p1 p2 => reach_mono hmono
  have holdfloor : ∀ room ∈ prev :: rest, ∀ p : ℤ × ℤ, InRoomP room p →
      g2 p.2 p.1 = TileType.FLOOR :=
    fun room hm p hp => hfloorpres _ _ (h.floors room hm p hp)
  have hnew : ∀ p q : ℤ × ℤ, InRoomP nr p → InRoomP nr q → Reach g2 p q :=
    reach_in_room g2 nr hnrfloor
  have hpc : InRoomP prev (prev.x + prev.width / 2, prev.y + prev.height / 2) :=
    center_in_room prev (h.bounds prev (by simp))
  have hnc : InRoomP nr (nr.x + nr.width / 2, nr.y + nr.height / 2) :=
    center_in_room nr hnb
  have hold : ∀ r1 ∈ prev :: rest, ∀ r2 ∈ prev :: rest, ∀ p1 p2 : ℤ × ℤ,
      InRoomP r1 p1 → InRoomP r2 p2 → Reach g2 p1 p2 :=
    fun r1 h1 r2 h2 p1 p2 hp1 hp2 =>
      hlift p1 p2 (h.connected r1 h1 r2 h2 p1 p2 hp1 hp2)
  refine ⟨List.pairwise_cons.mpr ⟨hnoov, h.pairwise⟩, ?_, ?_, ?_⟩
  · intro room hm
    rcases List.mem_cons.mp hm with rfl | hm
    · exact hnb
    · exact h.bounds room hm
  · intro room hm p hp
    rcases List.mem_cons.mp hm with rfl | hm
    · exact hnrfloor p hp
    · exact holdfloor room hm p hp
  · intro r1 h1 r2 h2 p1 p2 hp1 hp2
    rcases List.mem_cons.mp h1 with he1 | h1'
    · rw [he1] at hp1
      rcases List.mem_cons.mp h2 with he2 | h2'
      · rw [he2] at hp2
        exact hnew p1 p2 hp1 hp2
      · exact ((hnew p1 _ hp1 hnc).trans (reach_symm hcenters)).trans
          (hold prev (by simp) r2 h2' _ p2 hpc hp2)
    · rcases List.mem_cons.mp h2 with he2 | h2'
      · rw [he2] at hp2
        exact ((hold r1 h1' prev (by simp) p1 _ hp1 hpc).trans hcenters).trans
          (hnew _ p2 hnc hp2)
      · exact hold r1 h1' r2 h2' p1 p2 hp1 hp2

lemma placeRoomStep_inv (r : Rng) (k : ℕ) (g : Grid) (rooms : List Room)
    (h : GenInv ⟨g, rooms⟩) : GenInv (placeRoomStep r k ⟨g, rooms⟩).1 := by
  by_cases hov : roomOverlaps (sampledRoom r k) rooms 2 = true
  · simpa [placeRoomStep, hov] using h
  · have hov' : roomOverlaps (sampledRoom r k) rooms 2 = false := by
      revert hov
      cases roomOverlaps (sampledRoom r k) rooms 2 <;> simp
    have hnb := sampledRoom_inBounds r k
    have hnoov := roomOverlaps_eq_false (sampledRoom r k) rooms 2 hov'
    cases rooms with
    | nil =>
      have hres : (placeRoomStep r k ⟨g, []⟩).1 =
          ⟨carveRoom g (sampledRoom r k), [sampledRoom r k]⟩ := by
        simp [placeRoomStep, hov']
      rw [hres]
      have hfl : ∀ p : ℤ × ℤ, InRoomP (sampledRoom r k) p →
          carveRoom g (sampledRoom r k) p.2 p.1 = TileType.FLOOR :=
        carveRoom_floor_in g (sampledRoom r k) hnb
      refine ⟨by simp, ?_, ?_, ?_⟩
      · intro room hm
        rw [List.mem_singleton] at hm
        subst hm
        exact hnb
      · intro room hm p hp
        rw [List.mem_singleton] at hm
        subst hm
        exact hfl p hp
      · intro r1 h1 r2 h2 p1 p2 hp1 hp2
        rw [List.mem_singleton] at h1 h2
        subst h1
        subst h2
        exact reach_in_room _ (sampledRoom r k) hfl p1 p2 hp1 hp2
    | cons prev rest =>
      have hpb := h.bounds prev (by simp)
      have hcb : 0 ≤ prev.x + prev.width / 2 ∧
          prev.x + prev.width / 2 < DUNGEON_WIDTH ∧
          0 ≤ prev.y + prev.height / 2 ∧
          prev.y + prev.height / 2 < DUNGEON_HEIGHT := by
        obtain ⟨b1, b2, b3, b4, b5, b6⟩ := hpb
        refine ⟨by omega, by omega, by omega, by omega⟩
      have hcb' : 0 ≤ (sampledRoom r k).x + (sampledRoom r k).width / 2 ∧
          (sampledRoom r k).x + (sampledRoom r k).width / 2 < DUNGEON_WIDTH ∧
          0 ≤ (sampledRoom r k).y + (sampledRoom r k).height / 2 ∧
          (sampledRoom r k).y + (sampledRoom r k).height / 2 < DUNGEON_HEIGHT := by
        obtain ⟨b1, b2, b3, b4, b5, b6⟩ := hnb
        refine ⟨by omega, by omega, by omega, by omega⟩
      by_cases hpar : r (k + 4) % 2 = 0
      · have hres : (placeRoomStep r k ⟨g, prev :: rest⟩).1 =
            ⟨carveVerticalCorridor
              (carveHorizontalCorridor (carveRoom g (sampledRoom r k))
                (prev.x + prev.width / 2) ((sampledRoom r k).x + (sampledRoom r k).width / 2)
                (prev.y + prev.height / 2))
              (prev.y + prev.height / 2) ((sampledRoom r k).y + (sampledRoom r k).height / 2)
              ((sampledRoom r k).x + (sampledRoom r k).width / 2),
             sampledRoom r k :: prev :: rest⟩ := by
          simp [placeRoomStep, hov', hpar]
        rw [hres]
        have hHco := carveHorizontalCorridor_corridorOnly
          (carveRoom g (sampledRoom r k))
          (prev.x + prev.width / 2)
          ((sampledRoom r k).x + (sampledRoom r k).width / 2)
          (prev.y + prev.height / 2)
        have hVco := carveVerticalCorridor_corridorOnly
          (carveHorizontalCorridor (carveRoom g (sampledRoom r k))
            (prev.x + prev.width / 2)
            ((sampledRoom r k).x + (sampledRoom r k).width / 2)
            (prev.y + prev.height / 2))
          (prev.y + prev.height / 2)
          ((sampledRoom r k).y + (sampledRoom r k).height / 2)
          ((sampledRoom r k).x + (sampledRoom r k).width / 2)
        refine genInv_extend g _ prev rest (sampledRoom r k) h hnb hnoov
          ?_ ?_ ?_ ?_
        · intro y x hw
          exact corridorOnly_walk hVco y x
            (corridorOnly_walk hHco y x (carveRoom_walk g _ y x hw))
        · intro y x hf
          exact corridorOnly_floor hVco y x
            (corridorOnly_floor hHco y x (carveRoom_preserves_floor g _ y x hf))
        · intro p hp
          exact corridorOnly_floor hVco p.2 p.1
            (corridorOnly_floor hHco p.2 p.1
              (carveRoom_floor_in g _ hnb p hp))
        · exact corridor_connects_HV (carveRoom g (sampledRoom r k)) _ _ _ _
            hcb.1 hcb.2.1 hcb'.1 hcb'.2.1 hcb.2.2.1 hcb.2.2.2 hcb'.2.2.1
            hcb'.2.2.2
      · have hres : (placeRoomStep r k ⟨g, prev :: rest⟩).1 =
            ⟨carveHorizontalCorridor
              (carveVerticalCorridor (carveRoom g (sampledRoom r k))
                (prev.y + prev.height / 2) ((sampledRoom r k).y + (sampledRoom r k).height / 2)
                (prev.x + prev.width / 2))
              (prev.x + prev.width / 2) ((sampledRoom r k).x + (sampledRoom r k).width / 2)
              ((sampledRoom r k).y + (sampledRoom r k).height / 2),
             sampledRoom r k :: prev :: rest⟩ := by
          simp [placeRoomStep, hov', hpar]
        rw [hres]
        have hVco := carveVerticalCorridor_corridorOnly
          (carveRoom g (sampledRoom r k))
          (prev.y + prev.height / 2)
          ((sampledRoom r k).y + (sampledRoom r k).height / 2)
          (prev.x + prev.width / 2)
        have hHco := carveHorizontalCorridor_corridorOnly
          (carveVerticalCorridor (carveRoom g (sampledRoom r k))
            (prev.y + prev.height / 2)
            ((sampledRoom r k).y + (sampledRoom r k).height / 2)
            (prev.x + prev.width / 2))
          (prev.x + prev.width / 2)
          ((sampledRoom r k).x + (sampledRoom r k).width / 2)
          ((sampledRoom r k).y + (sampledRoom r k).height / 2)
        refine genInv_extend g _ prev rest (sampledRoom r k) h hnb hnoov
          ?_ ?_ ?_ ?_
        · intro y x hw
          exact corridorOnly_walk hHco y x
            (corridorOnly_walk hVco y x (carveRoom_walk g _ y x hw))
        · intro y x hf
          exact corridorOnly_floor hHco y x
            (corridorOnly_floor hVco y x (carveRoom_preserves_floor g _ y x hf))
        · intro p hp
          exact corridorOnly_floor hHco p.2 p.1
            (corridorOnly_floor hVco p.2 p.1
              (carveRoom_floor_in g _ hnb p hp))
        · exact corridor_connects_VH (carveRoom g (sampledRoom r k)) _ _ _ _
            hcb.1 hcb.2.1 hcb'.1 hcb'.2.1 hcb.2.2.1 hcb.2.2.2 hcb'.2.2.1
            hcb'.2.2.2

lemma genLoop_inv (r : Rng) (numRooms : ℕ) :
    ∀ (fuel k : ℕ) (s : GenState), GenInv s →
      GenInv (genLoop r numRooms fuel k s) := by
  intro fuel
  induction fuel with
  | zero => intro k s h; exact h
  | succ fuel ih =>
    intro k s h
    rw [genLoop]
    split
    · obtain ⟨g, rooms⟩ := s
      exact ih _ _ (placeRoomStep_inv r k g rooms h)
    · exact h

lemma generateDungeon_inv (r : Rng) : GenInv (generateDungeon r) := by
  rw [generateDungeon]
  exact genLoop_inv r _ 100 1 _ (genInv_init _)

/-! ## C1: pairwise padding-inflated non-overlap -/

/-- Inflating a room rectangle by `padding` cells on every side (the
geometric reading of the spec's padded overlap test). -/
def inflate (room : Room) (padding : ℤ) : Room :=
  ⟨room.x - padding, room.y - padding,
   room.width + 2 * padding, room.height + 2 * padding⟩

/-- Two room rectangles intersect when some cell lies in both. -/
def rectsIntersect (a b : Room) : Prop :=
  ∃ p : ℤ × ℤ, InRoomP a p ∧ InRoomP b p

lemma overlapsWith_false_inflate {a b : Room}
    (h : roomOverlapsWith a b 2 = false) :
    ¬ rectsIntersect (inflate a 2) b ∧ ¬ rectsIntersect (inflate b 2) a := by
  rw [roomOverlapsWith] at h
  simp only [Bool.and_eq_false_iff, decide_eq_false_iff_not, not_lt] at h
  constructor
  · rintro ⟨p, ⟨c1, c2, c3, c4⟩, ⟨d1, d2, d3, d4⟩⟩
    simp only [inflate] at c1 c2 c3 c4
    omega
  · rintro ⟨p, ⟨c1, c2, c3, c4⟩, ⟨d1, d2, d3, d4⟩⟩
    simp only [inflate] at c1 c2 c3 c4
    omega

/-- C1: after any run of `generateDungeon`, the placed-room list is pairwise
non-overlapping under the padding-inflated test with padding = 2: for every
two distinct rooms of the list, inflating either room by 2 cells on every side
yields a rectangle that does not intersect the other room. -/
theorem generateDungeon_rooms_disjoint (r : Rng) :
    ((generateDungeon r).rooms).Pairwise fun a b =>
      ¬ rectsIntersect (inflate a 2) b ∧ ¬ rectsIntersect (inflate b 2) a :=
  (generateDungeon_inv r).pairwise.imp fun hab => overlapsWith_false_inflate hab

/-! ## C2: connectivity of all placed rooms -/

/-- C2: for every run of the dungeon generator that places at least 2 rooms,
every cell of every placed room is reachable from every cell of every other
placed room by a 4-connected path of grid cells whose kinds are all Floor or
Corridor. -/
theorem generateDungeon_rooms_connected (r : Rng)
    (hn : 2 ≤ (generateDungeon r).rooms.length)
    (r1 r2 : Room)
    (h1 : r1 ∈ (generateDungeon r).rooms) (h2 : r2 ∈ (generateDungeon r).rooms)
    (p1 p2 : ℤ × ℤ) (hp1 : InRoomP r1 p1) (hp2 : InRoomP r2 p2) :
    Reach (generateDungeon r).grid p1 p2 :=
  (generateDungeon_inv r).connected r1 h1 r2 h2 p1 p2 hp1 hp2

/-- Witness for C2: the identity stream places 8 rooms; the centers of the
first and second placed rooms are mutually reachable. -/
theorem generateDungeon_rooms_connected_witness :
    2 ≤ (generateDungeon (fun n => n)).rooms.length ∧
    (⟨31, 21, 5, 6⟩ : Room) ∈ (generateDungeon (fun n => n)).rooms ∧
    (⟨15, 3, 4, 5⟩ : Room) ∈ (generateDungeon (fun n => n)).rooms ∧
    InRoomP ⟨31, 21, 5, 6⟩ (33, 24) ∧ InRoomP ⟨15, 3, 4, 5⟩ (17, 5) ∧
    Reach (generateDungeon (fun n => n)).grid (33, 24) (17, 5) :=
  ⟨by decide, by decide, by decide, by decide, by decide,
   generateDungeon_rooms_connected (fun n => n) (by decide)
     ⟨31, 21, 5, 6⟩ ⟨15, 3, 4, 5⟩ (by decide) (by decide)
     (33, 24) (17, 5) (by decide) (by decide)⟩

end TestGame
